import Mathlib

/-!
Shallow embedding of the `span_demo` particle-stack benchmark core
(`Particle`, `ParticleSpan`, `setup_stack`, `energy_loss`, `move_particle`,
the process variants and process lists).

Modelling conventions:
* The C++ scalar fields are `float` (and `std::int32_t` for `pid`); all
  arithmetic claims are stated up to floating-point tolerance, so the
  numeric fields are embedded as exact rationals (`ℚ`) and `pid` as `ℤ`.
* The natural logarithm (`std::log` / Eigen's elementwise `log`) is the one
  transcendental function used.  Every claim under consideration holds for
  an arbitrary interpretation of the logarithm, so the operations take the
  logarithm as an explicit function parameter `rlog : ℚ → ℚ`.  This keeps
  every definition computable, so witnesses can be evaluated.
* An Eigen elementwise expression assigned through the strided views of a
  `ParticleSpan` (e.g. `span.e() -= mask * (...)`) computes each element of
  the result from the fields of the record at the same index only; it is
  embedded as a `List.map` of the per-record formula over the records of
  the span.
-/

namespace SpanDemo

/-- `struct Particle`: one record with an `std::int32_t` identity tag `pid_`
and eight `float` fields — momentum `px_ py_ pz_`, energy `e_`, position
`x_ y_ z_` and time `t_` (in this declaration order). -/
structure Particle where
  pid : ℤ
  px : ℚ
  py : ℚ
  pz : ℚ
  e : ℚ
  x : ℚ
  y : ℚ
  z : ℚ
  t : ℚ
deriving DecidableEq

/-- `sqr(x) = x * x`. -/
def sqr (x : ℚ) : ℚ := x * x

/-- `momentum_squared(part) = sqr(px) + sqr(py) + sqr(pz)`. -/
def momentum_squared (p : Particle) : ℚ := sqr p.px + sqr p.py + sqr p.pz

/-- `charge(part) = part.pid() != 0` (a `bool` in the source). -/
def charge (p : Particle) : Bool := p.pid != 0

/-- Promotion of the boolean charge to a numeric factor: the implicit
`bool → double` promotion in `c * (...)` in the single-particle overload,
and `.cast<float>()` in the `ParticleSpan` overload of `charge`. -/
def chargeF (p : Particle) : ℚ := if charge p then 1 else 0

/-- `beta_2 = momentum_squared(part) / sqr(part.e())` as computed by both
`energy_loss` forms.  (Division by zero is total in `ℚ`; the claims only
constrain inputs where the C++ expression is finite.) -/
def beta_2 (p : Particle) : ℚ := momentum_squared p / sqr p.e

/-- The generic (template) `energy_loss` at a single record:
`part.e() -= charge(part) * (log(beta_2 / (1.0 - beta_2)) / beta_2 - 1.0)`,
where the boolean charge is promoted to `0`/`1` and multiplies the loss
term unconditionally (the "masked" form). -/
def energy_loss (rlog : ℚ → ℚ) (p : Particle) : Particle :=
  { p with e := p.e - chargeF p * (rlog (beta_2 p / (1 - beta_2 p)) / beta_2 p - 1) }

/-- The specialized overload `energy_loss(Particle&)`: computes
`c = charge(part)` and only when `c != 0` subtracts
`c * (log(beta_2 / (1.0 - beta_2)) / beta_2 - 1.0)` from the energy. -/
def energy_loss_one (rlog : ℚ → ℚ) (p : Particle) : Particle :=
  if charge p then
    { p with e := p.e - chargeF p * (rlog (beta_2 p / (1 - beta_2 p)) / beta_2 p - 1) }
  else p

/-- The fixed time step `dt = 0.1` of `move_particle`. -/
def dt : ℚ := 1 / 10

/-- The generic (template) `move_particle` at a single record:
`x += px*dt; y += py*dt; z += pz*dt; t += dt`. -/
def move_particle (p : Particle) : Particle :=
  { p with
    x := p.x + p.px * dt
    y := p.y + p.py * dt
    z := p.z + p.pz * dt
    t := p.t + dt }

/-- The generic (template) `energy_loss` instantiated at `ParticleSpan`:
every strided-view operation is elementwise, so the span form applies the
masked per-record formula to each record of the span. -/
def energy_loss_span (rlog : ℚ → ℚ) (ps : List Particle) : List Particle :=
  ps.map (energy_loss rlog)

/-- The generic (template) `move_particle` instantiated at `ParticleSpan`:
elementwise update of the position and time views. -/
def move_particle_span (ps : List Particle) : List Particle :=
  ps.map move_particle

/-- The per-record loop `for (auto&& p : span) energy_loss(p);` used by
`ContinuousEnergyLossNoEigen` (overload resolution picks the specialized
`energy_loss(Particle&)` for a `Particle` lvalue). -/
def energy_loss_span_no_eigen (rlog : ℚ → ℚ) (ps : List Particle) : List Particle :=
  ps.map (energy_loss_one rlog)

/-- The per-record loop `for (auto&& p : span) move_particle(p);` used by
`MoveParticleNoEigen`. -/
def move_particle_span_no_eigen (ps : List Particle) : List Particle :=
  ps.map move_particle

/-- `setup_stack` builds `std::vector<Particle> stack(100000)`
(value-initialized, hence all fields zero for this trivial type) and then
sets `part.pid() = (++i % 3 - 1)` with `i` starting at `0`, i.e. the record
at zero-based index `idx` gets `pid = (idx + 1) % 3 - 1`. -/
def setup_stack : List Particle :=
  (List.range 100000).map fun (idx : ℕ) =>
    { pid := ((idx : ℤ) + 1) % 3 - 1
      px := 0, py := 0, pz := 0, e := 0, x := 0, y := 0, z := 0, t := 0 }

/-- `class ParticleSpan`: a non-owning handle on a contiguous sub-range of a
particle storage, held as its `begin_` and `end_` pointers.  Pointers into
the storage are embedded as record indices. -/
structure ParticleSpan where
  begin_ : ℕ
  end_ : ℕ
deriving DecidableEq

/-- `ParticleSpan::size() = end_ - begin_`. -/
def ParticleSpan.size (s : ParticleSpan) : ℕ := s.end_ - s.begin_

/-- The records of the storage that a `ParticleSpan` ranges over
(the half-open range `[begin_, end_)`). -/
def ParticleSpan.records (s : ParticleSpan) (mem : List Particle) : List Particle :=
  (mem.drop s.begin_).take s.size

/-- A span together with the storage it points into: the state a process
acts on (mutation through the span's views writes into the storage). -/
structure SpanState where
  span : ParticleSpan
  mem : List Particle
deriving DecidableEq

/-- `using ProcessVariant = std::variant<ContinuousEnergyLoss,
ContinuousEnergyLossNoEigen, MoveParticle, MoveParticleNoEigen>`. -/
inductive ProcessVariant
  | continuousEnergyLoss
  | continuousEnergyLossNoEigen
  | moveParticle
  | moveParticleNoEigen
deriving DecidableEq

/-- `operator()` of each process struct applied to a `ParticleSpan`:
`ContinuousEnergyLoss` and `MoveParticle` call the generic template on the
span; the `NoEigen` variants loop per record. -/
def ProcessVariant.run (rlog : ℚ → ℚ) : ProcessVariant → List Particle → List Particle
  | .continuousEnergyLoss => energy_loss_span rlog
  | .continuousEnergyLossNoEigen => energy_loss_span_no_eigen rlog
  | .moveParticle => move_particle_span
  | .moveParticleNoEigen => move_particle_span_no_eigen

/-- One `visit([&span](auto& proc) { proc(span); }, process)` step: the
process rewrites the records in the span's range of the storage; the span
itself is only read. -/
def runProcess (rlog : ℚ → ℚ) (v : ProcessVariant) (st : SpanState) : SpanState :=
  { span := st.span
    mem := st.mem.take st.span.begin_
      ++ v.run rlog (st.span.records st.mem)
      ++ st.mem.drop (st.span.begin_ + st.span.size) }

/-- `for (const auto& process : process_list) visit(..., process)`:
the processes of a `ProcessList` applied to the span in list order. -/
def runProcessList (rlog : ℚ → ℚ) (l : List ProcessVariant) (st : SpanState) : SpanState :=
  l.foldl (fun st v => runProcess rlog v st) st

/-! ### Flat-memory model of the strided views

`ArrayView<T>` is an `Eigen::Map` with `InnerStride<sizeof(Particle)/sizeof(float)>`:
element `i` of the view for a field lives `i * stride` scalar slots after the
field of the first record.  To reason about this address arithmetic, the
storage is also modelled flat, as a list of scalar slots (9 per record, in
declaration order); the slot content type is arbitrary. -/

/-- The scalar fields of a `Particle`, in declaration order. -/
inductive Field
  | pid | px | py | pz | e | x | y | z | t
deriving DecidableEq

/-- Offset (in scalar slots) of each field inside a `Particle`. -/
def Field.offset : Field → ℕ
  | .pid => 0
  | .px => 1
  | .py => 2
  | .pz => 3
  | .e => 4
  | .x => 5
  | .y => 6
  | .z => 7
  | .t => 8

/-- `sizeof(Particle) / sizeof(float)`: the inner stride of `ArrayView`,
and the number of scalar slots per record. -/
def stride : ℕ := 9

/-- Flat slot index of element `i` of the strided view
`ArrayView(&begin_->field_, size())` for a span whose `begin_` is record
index `b`: the view's base address is the field of record `b`, and element
`i` is `i * stride` slots further. -/
def viewIndex (b : ℕ) (f : Field) (i : ℕ) : ℕ :=
  (stride * b + f.offset) + i * stride

/-- Flat slot index of field `f` of the record at span-relative index `i`
reached through per-record iteration (`*(begin_ + i)`) and the record's
field accessor. -/
def recordFieldIndex (b : ℕ) (i : ℕ) (f : Field) : ℕ :=
  stride * (b + i) + f.offset

/-- Writing value `v` through the strided field view at element `i`
(assignment through the `Eigen::Map` writes the slot in place). -/
def viewWrite {α : Type} (m : List α) (b : ℕ) (f : Field) (i : ℕ) (v : α) : List α :=
  m.set (viewIndex b f i) v

/-- Reading field `f` of the record at span-relative index `i` through the
per-record accessor (`d` is the junk returned on an out-of-range read,
which the contract excludes). -/
def recordRead {α : Type} (m : List α) (b : ℕ) (i : ℕ) (f : Field) (d : α) : α :=
  (m.getD (recordFieldIndex b i f)) d

/-- A concrete charged record used as a demo input: `pid = 1`, unit
momentum components, energy `2` (so `beta_2 = 3/4 ∈ (0,1)`), at the
origin. -/
def pDemo : Particle :=
  { pid := 1, px := 1, py := 1, pz := 1, e := 2, x := 0, y := 0, z := 0, t := 0 }

/-- A demo state: a span over the single-record storage `[pDemo]`. -/
def stDemo : SpanState := ⟨⟨0, 1⟩, [pDemo]⟩

/-! ### Helper lemmas -/

/-- The specialized overload agrees with the generic masked form on every
record: when the charge is zero the mask zeroes the subtracted term. -/
lemma energy_loss_one_eq (rlog : ℚ → ℚ) (p : Particle) :
    energy_loss_one rlog p = energy_loss rlog p := by
  by_cases h : charge p
  · simp [energy_loss_one, energy_loss, h]
  · simp [energy_loss_one, energy_loss, chargeF, h]

/-- `energy_loss` only writes `e` and reads `pid`, momentum and `e`;
`move_particle` only writes position and time and reads momentum:
the two updates commute record-wise. -/
lemma move_energy_loss_comm (rlog : ℚ → ℚ) (p : Particle) :
    move_particle (energy_loss rlog p) = energy_loss rlog (move_particle p) := rfl

/-- The per-record no-Eigen loop computes the same records as the Eigen
span form. -/
lemma energy_loss_span_no_eigen_eq (rlog : ℚ → ℚ) (ps : List Particle) :
    energy_loss_span_no_eigen rlog ps = energy_loss_span rlog ps :=
  List.map_congr_left fun p _ => energy_loss_one_eq rlog p

/-- The per-record no-Eigen move loop computes the same records as the
Eigen span form. -/
lemma move_particle_span_no_eigen_eq (ps : List Particle) :
    move_particle_span_no_eigen ps = move_particle_span ps := rfl

/-- Every process variant maps records to records, preserving the count. -/
lemma run_length (rlog : ℚ → ℚ) (v : ProcessVariant) (ps : List Particle) :
    (v.run rlog ps).length = ps.length := by
  cases v <;>
    simp [ProcessVariant.run, energy_loss_span, energy_loss_span_no_eigen,
      move_particle_span, move_particle_span_no_eigen]

/-- The span-level forms of the two distinct updates commute. -/
lemma span_comm (rlog : ℚ → ℚ) (ps : List Particle) :
    move_particle_span (energy_loss_span rlog ps) =
      energy_loss_span rlog (move_particle_span ps) := by
  simp only [move_particle_span, energy_loss_span, List.map_map]
  exact List.map_congr_left fun p _ => move_energy_loss_comm rlog p

/-- Any two process variants commute on the records of a span: all four
reduce to the two record-wise updates, which touch disjoint fields. -/
lemma run_comm (rlog : ℚ → ℚ) (v w : ProcessVariant) (ps : List Particle) :
    v.run rlog (w.run rlog ps) = w.run rlog (v.run rlog ps) := by
  cases v <;> cases w <;>
    simp only [ProcessVariant.run, energy_loss_span_no_eigen_eq,
      move_particle_span_no_eigen_eq, span_comm]

/-- Taking the prefix before the span is unaffected by splicing new
records of matching count into the span's range. -/
lemma splice_take (mem Y : List Particle) (b sz : ℕ)
    (hY : Y.length = min sz (mem.length - b)) :
    (mem.take b ++ (Y ++ mem.drop (b + sz))).take b = mem.take b := by
  rcases le_or_lt b mem.length with h | h
  · rw [List.take_append_eq_append_take]
    simp [List.take_take, List.length_take, Nat.min_eq_left h]
  · have hmem : mem.take b = mem := List.take_of_length_le h.le
    have hY0 : Y = [] := List.eq_nil_of_length_eq_zero (by omega)
    have hd : mem.drop (b + sz) = [] := List.drop_eq_nil_of_le (by omega)
    simp [hmem, hY0, hd, List.take_of_length_le h.le]

/-- The span's range of the spliced storage holds exactly the spliced
records. -/
lemma splice_middle (mem Y : List Particle) (b sz : ℕ)
    (hY : Y.length = min sz (mem.length - b)) :
    ((mem.take b ++ (Y ++ mem.drop (b + sz))).drop b).take sz = Y := by
  rcases le_or_lt b mem.length with h | h
  · rw [List.drop_append_eq_append_drop]
    have h1 : (mem.take b).length = b := by simp [Nat.min_eq_left h]
    have h2 : (mem.take b).drop b = [] := List.drop_eq_nil_of_le (by simp)
    rw [h1, h2, Nat.sub_self, List.nil_append, List.drop_zero,
      List.take_append_eq_append_take]
    have h3 : Y.take sz = Y := List.take_of_length_le (by omega)
    rcases le_or_lt (b + sz) mem.length with h4 | h4
    · have : sz - Y.length = 0 := by omega
      simp [h3, this]
    · have hd : mem.drop (b + sz) = [] := List.drop_eq_nil_of_le (by omega)
      simp [h3, hd]
  · have hmem : mem.take b = mem := List.take_of_length_le h.le
    have hY0 : Y = [] := List.eq_nil_of_length_eq_zero (by omega)
    have hd : mem.drop (b + sz) = [] := List.drop_eq_nil_of_le (by omega)
    simp [hmem, hY0, hd, List.drop_eq_nil_of_le h.le]

/-- The suffix after the span is unaffected by splicing new records of
matching count into the span's range. -/
lemma splice_drop (mem Y : List Particle) (b sz : ℕ)
    (hY : Y.length = min sz (mem.length - b)) :
    (mem.take b ++ (Y ++ mem.drop (b + sz))).drop (b + sz) = mem.drop (b + sz) := by
  rcases le_or_lt b mem.length with h | h
  · rw [List.drop_append_eq_append_drop]
    have h1 : (mem.take b).length = b := by simp [Nat.min_eq_left h]
    have h2 : (mem.take b).drop (b + sz) = [] := List.drop_eq_nil_of_le (by simp)
    rw [h1, h2, List.nil_append, Nat.add_sub_cancel_left,
      List.drop_append_eq_append_drop]
    have h3 : Y.drop sz = [] := List.drop_eq_nil_of_le (by omega)
    rcases le_or_lt (b + sz) mem.length with h4 | h4
    · have : sz - Y.length = 0 := by omega
      simp [h3, this]
    · have hd : mem.drop (b + sz) = [] := List.drop_eq_nil_of_le (by omega)
      simp [h3, hd]
  · have hmem : mem.take b = mem := List.take_of_length_le h.le
    have hY0 : Y = [] := List.eq_nil_of_length_eq_zero (by omega)
    have hd : mem.drop (b + sz) = [] := List.drop_eq_nil_of_le (by omega)
    simp [hmem, hY0, hd]

/-- A processing step keeps the span component of the state. -/
lemma runProcess_span (rlog : ℚ → ℚ) (v : ProcessVariant) (st : SpanState) :
    (runProcess rlog v st).span = st.span := rfl

/-- The storage after a processing step, written with a right-nested
append. -/
lemma runProcess_mem (rlog : ℚ → ℚ) (v : ProcessVariant) (st : SpanState) :
    (runProcess rlog v st).mem = st.mem.take st.span.begin_ ++
      (v.run rlog (st.span.records st.mem) ++
        st.mem.drop (st.span.begin_ + st.span.size)) := by
  simp [runProcess, List.append_assoc]

/-- The records a span denotes in a processed storage are the processed
records of the span's original range. -/
lemma records_runProcess (rlog : ℚ → ℚ) (v : ProcessVariant) (st : SpanState) :
    st.span.records (runProcess rlog v st).mem = v.run rlog (st.span.records st.mem) := by
  have hY : (v.run rlog (st.span.records st.mem)).length =
      min st.span.size (st.mem.length - st.span.begin_) := by
    rw [run_length]
    simp [ParticleSpan.records]
  simpa [runProcess, ParticleSpan.records, List.append_assoc] using
    splice_middle st.mem (v.run rlog (st.span.records st.mem)) st.span.begin_ st.span.size hY

/-- Two processing steps on the same span commute: each rewrites only the
span's range, record-wise, with commuting record updates. -/
lemma runProcess_comm (rlog : ℚ → ℚ) (v w : ProcessVariant) (st : SpanState) :
    runProcess rlog w (runProcess rlog v st) = runProcess rlog v (runProcess rlog w st) := by
  have hlen : ∀ u : ProcessVariant, (u.run rlog (st.span.records st.mem)).length =
      min st.span.size (st.mem.length - st.span.begin_) := by
    intro u
    rw [run_length]
    simp [ParticleSpan.records]
  have key : ∀ u₁ u₂ : ProcessVariant,
      runProcess rlog u₂ (runProcess rlog u₁ st) =
        ⟨st.span, st.mem.take st.span.begin_ ++
          (u₂.run rlog (u₁.run rlog (st.span.records st.mem)) ++
            st.mem.drop (st.span.begin_ + st.span.size))⟩ := by
    intro u₁ u₂
    show SpanState.mk _ _ = SpanState.mk _ _
    rw [SpanState.mk.injEq]
    refine ⟨rfl, ?_⟩
    rw [runProcess_span, records_runProcess, runProcess_mem rlog u₁ st,
      splice_take st.mem _ _ _ (hlen u₁), splice_drop st.mem _ _ _ (hlen u₁),
      List.append_assoc]
  rw [key v w, key w v, run_comm]

/-- The record stored by `setup_stack` at each index below the stack
size. -/
lemma setup_stack_getElem (i : ℕ) (h : i < 100000) :
    setup_stack[i]? =
      some { pid := ((i : ℤ) + 1) % 3 - 1
             px := 0, py := 0, pz := 0, e := 0, x := 0, y := 0, z := 0, t := 0 } := by
  have h1 : (List.range 100000)[i]? = some i := by simp [List.getElem?_range, h]
  rw [setup_stack, List.getElem?_map, h1, Option.map_some']

/-! ### Claims -/

/-- C1: for a storage of `N` records, applying the single-record form of
each dual-form update operation (`energy_loss`, via its specialized
single-record overload, and `move_particle`) to each record individually in
index order produces exactly the field values obtained by applying the
batch form once through a `ParticleSpan` spanning all `N` records. -/
theorem claim_single_vs_batch (rlog : ℚ → ℚ) (mem : List Particle) :
    (runProcess rlog .continuousEnergyLoss ⟨⟨0, mem.length⟩, mem⟩).mem =
      mem.map (energy_loss_one rlog) ∧
    (runProcess rlog .moveParticle ⟨⟨0, mem.length⟩, mem⟩).mem =
      mem.map move_particle := by
  constructor
  · rw [runProcess_mem]
    simp [ParticleSpan.records, ParticleSpan.size, ProcessVariant.run, energy_loss_span]
    intro p _
    exact (energy_loss_one_eq rlog p).symm
  · rw [runProcess_mem]
    simp [ParticleSpan.records, ParticleSpan.size, ProcessVariant.run, move_particle_span]

/-- C2: the specialized single-record `energy_loss` overload (branching on
the charge predicate) computes exactly the same record as the generic
masked form (multiplying the loss term by the promoted charge factor), on
every input and for every interpretation of the logarithm — in the exact
arithmetic of the model there is no divergence at all, in particular none
outside the permitted singular points `beta_2 ∈ {0, 1}`. -/
theorem claim_energy_loss_specialization (rlog : ℚ → ℚ) (p : Particle) :
    energy_loss_one rlog p = energy_loss rlog p :=
  energy_loss_one_eq rlog p

/-- C3: after one application of the single-record `energy_loss`, a record
whose `pid` is the neutral sentinel `0` keeps its energy unchanged, and a
record with nonzero `pid` (charge factor `1`) loses exactly
`log(beta_2 / (1 - beta_2)) / beta_2 - 1` where
`beta_2 = (px^2 + py^2 + pz^2) / e^2`. -/
theorem claim_energy_loss_neutral_charged (rlog : ℚ → ℚ) (p : Particle) :
    (p.pid = 0 → (energy_loss_one rlog p).e = p.e) ∧
    (p.pid ≠ 0 → (energy_loss_one rlog p).e =
      p.e - (rlog (beta_2 p / (1 - beta_2 p)) / beta_2 p - 1)) := by
  constructor
  · intro h
    simp [energy_loss_one, charge, h]
  · intro h
    simp [energy_loss_one, charge, chargeF, h]

/-- Witness for C3 at a neutral and a charged concrete record. -/
theorem claim_energy_loss_neutral_charged_witness :
    (energy_loss_one (fun q => q) (Particle.mk 0 1 1 1 2 0 0 0 0)).e =
      (Particle.mk 0 1 1 1 2 0 0 0 0).e ∧
    (energy_loss_one (fun q => q) (Particle.mk 1 1 1 1 2 0 0 0 0)).e =
      (Particle.mk 1 1 1 1 2 0 0 0 0).e -
        ((fun q : ℚ => q) (beta_2 (Particle.mk 1 1 1 1 2 0 0 0 0) /
            (1 - beta_2 (Particle.mk 1 1 1 1 2 0 0 0 0))) /
          beta_2 (Particle.mk 1 1 1 1 2 0 0 0 0) - 1) :=
  ⟨(claim_energy_loss_neutral_charged (fun q => q) (Particle.mk 0 1 1 1 2 0 0 0 0)).1 rfl,
   (claim_energy_loss_neutral_charged (fun q => q) (Particle.mk 1 1 1 1 2 0 0 0 0)).2
     (by decide)⟩

/-- C4: one application of `move_particle` advances each position
component by the matching momentum component times the fixed step `dt`,
advances time by `dt`, and leaves the momentum unchanged. -/
theorem claim_move_particle (p : Particle) :
    (move_particle p).x = p.x + p.px * dt ∧
    (move_particle p).y = p.y + p.py * dt ∧
    (move_particle p).z = p.z + p.pz * dt ∧
    (move_particle p).t = p.t + dt ∧
    (move_particle p).px = p.px ∧
    (move_particle p).py = p.py ∧
    (move_particle p).pz = p.pz :=
  ⟨rfl, rfl, rfl, rfl, rfl, rfl, rfl⟩

/-- C5: writing a value through a field's strided view at element `i` and
reading that field back through the per-record accessor of the record at
index `i` returns the written value, for every in-range index (stated on
the flat slot model of the storage, where the view's address arithmetic
`base + i * stride` and the record accessor's `stride * (begin + i) +
offset` are both explicit). -/
theorem claim_strided_view_roundtrip {α : Type} (m : List α) (b i : ℕ) (f : Field)
    (v d : α) (h : recordFieldIndex b i f < m.length) :
    recordRead (viewWrite m b f i v) b i f d = v := by
  have hidx : viewIndex b f i = recordFieldIndex b i f := by
    simp only [viewIndex, recordFieldIndex]
    ring
  rw [recordRead, viewWrite, hidx, List.getD_eq_getElem?_getD,
    List.getElem?_set_self (by simpa using h)]
  rfl

/-- Witness for C5: two records of `ℚ` slots, writing `5` through the `e`
view at element `1` and reading it back through record `1`. -/
theorem claim_strided_view_roundtrip_witness :
    recordRead (viewWrite (List.replicate 18 (0 : ℚ)) 0 Field.e 1 5) 0 1 Field.e 0 = 5 :=
  claim_strided_view_roundtrip (List.replicate 18 (0 : ℚ)) 0 1 Field.e 5 0 (by decide)

/-- C6 (amended): a process list `[A, B]` applies `A` first and `B` second
to the span, in list order; however, every pair drawn from the closed
process set commutes — in particular `MoveParticle` and
`ContinuousEnergyLoss` — because `energy_loss` writes only the energy and
reads only fields `move_particle` never writes, and vice versa, so no
non-commuting pair exists in this operation set. -/
theorem claim_process_list_order (rlog : ℚ → ℚ) (A B : ProcessVariant) (st : SpanState) :
    runProcessList rlog [A, B] st = runProcess rlog B (runProcess rlog A st) ∧
    runProcessList rlog [A, B] st = runProcessList rlog [B, A] st :=
  ⟨rfl, runProcess_comm rlog A B st⟩

/-- Counterexample to C6 as stated: at the concrete one-record state
`stDemo` (charged record, `beta_2 = 3/4`), running
`[MoveParticle, ContinuousEnergyLoss]` gives exactly the same state as
running `[ContinuousEnergyLoss, MoveParticle]` — the pair the claim names
as non-commuting commutes. -/
theorem claim_process_list_order_counterexample :
    runProcessList (fun q => q)
        [ProcessVariant.moveParticle, ProcessVariant.continuousEnergyLoss] stDemo =
      runProcessList (fun q => q)
        [ProcessVariant.continuousEnergyLoss, ProcessVariant.moveParticle] stDemo :=
  runProcess_comm (fun q => q) ProcessVariant.moveParticle
    ProcessVariant.continuousEnergyLoss stDemo

/-- C7 (amended): `setup_stack` assigns identity tags cycling `0, 1, -1`
(not `0, 1, 2`) via the rule `pid = (index + 1) % 3 - 1`; records at
indices divisible by `3` get the neutral tag `0` and all other records get
a nonzero tag. -/
theorem claim_setup_stack_tags (i : ℕ) (h : i < 100000) :
    setup_stack[i]?.map Particle.pid = some (((i : ℤ) + 1) % 3 - 1) ∧
    (i % 3 = 0 → setup_stack[i]?.map Particle.pid = some 0) ∧
    (i % 3 ≠ 0 → setup_stack[i]?.map Particle.pid ≠ some 0) := by
  rw [setup_stack_getElem i h, Option.map_some']
  refine ⟨rfl, ?_, ?_⟩
  · intro h3
    have he : ((i : ℤ) + 1) % 3 - 1 = 0 := by omega
    rw [he]
  · intro h3
    have he : ((i : ℤ) + 1) % 3 - 1 ≠ 0 := by omega
    simp [he]

/-- Witness for C7 at indices `3` (neutral) and `1` (charged). -/
theorem claim_setup_stack_tags_witness :
    setup_stack[3]?.map Particle.pid = some 0 ∧
    setup_stack[1]?.map Particle.pid ≠ some 0 :=
  ⟨(claim_setup_stack_tags 3 (by norm_num)).2.1 rfl,
   (claim_setup_stack_tags 1 (by norm_num)).2.2 (by decide)⟩

/-- Counterexample to C7 as stated: the record at index `2` has tag `-1`,
not the `2` that the claimed `0,1,2,0,1,2,...` cycle would require. -/
theorem claim_setup_stack_tags_counterexample :
    setup_stack[2]?.map Particle.pid = some (-1) ∧
    ¬ setup_stack[2]?.map Particle.pid = some 2 := by
  rw [setup_stack_getElem 2 (by norm_num), Option.map_some']
  refine ⟨by decide, by decide⟩

/-- C9: a `ParticleSpan` is immutable once constructed: one processing
step, and a whole process list, leave the state's span — its `begin_`,
`end_` and `size()` — unchanged; only the storage the span points into is
rewritten. -/
theorem claim_span_immutable (rlog : ℚ → ℚ) (v : ProcessVariant)
    (l : List ProcessVariant) (st : SpanState) :
    (runProcess rlog v st).span = st.span ∧
    (runProcess rlog v st).span.begin_ = st.span.begin_ ∧
    (runProcess rlog v st).span.end_ = st.span.end_ ∧
    (runProcess rlog v st).span.size = st.span.size ∧
    (runProcessList rlog l st).span = st.span := by
  refine ⟨rfl, rfl, rfl, rfl, ?_⟩
  induction l generalizing st with
  | nil => rfl
  | cons v' l' ih => exact ih (runProcess rlog v' st)

/-- C10 (frame property): one application of `energy_loss` — generic
masked form or specialized single-record overload — changes only the
energy field `e`; `pid`, momentum, position and time are all unchanged. -/
theorem claim_energy_loss_frame (rlog : ℚ → ℚ) (p : Particle) :
    ((energy_loss rlog p).pid = p.pid ∧
      (energy_loss rlog p).px = p.px ∧
      (energy_loss rlog p).py = p.py ∧
      (energy_loss rlog p).pz = p.pz ∧
      (energy_loss rlog p).x = p.x ∧
      (energy_loss rlog p).y = p.y ∧
      (energy_loss rlog p).z = p.z ∧
      (energy_loss rlog p).t = p.t) ∧
    ((energy_loss_one rlog p).pid = p.pid ∧
      (energy_loss_one rlog p).px = p.px ∧
      (energy_loss_one rlog p).py = p.py ∧
      (energy_loss_one rlog p).pz = p.pz ∧
      (energy_loss_one rlog p).x = p.x ∧
      (energy_loss_one rlog p).y = p.y ∧
      (energy_loss_one rlog p).z = p.z ∧
      (energy_loss_one rlog p).t = p.t) := by
  rw [energy_loss_one_eq]
  exact ⟨⟨rfl, rfl, rfl, rfl, rfl, rfl, rfl, rfl⟩, ⟨rfl, rfl, rfl, rfl, rfl, rfl, rfl, rfl⟩⟩

end SpanDemo
